import Mathlib

/-!
Shallow embedding of the ESP32 thermostat sketch
(`src/sketch_nov13a/sketch_nov13a.ino`) and proofs about its
mode/state-management and control-decision layer.

Modelling conventions:
* C `float`/`double` values are modelled as rationals `ℚ`; the NaN
  "missing" sentinel of a temperature sample is modelled as `none` in
  `Option ℚ` (so a sample is `Option ℚ`).
* `millis()` timestamps are natural numbers; the C unsigned subtraction
  `now - earlier` is ℕ truncated subtraction (the device clock is
  monotone within one awake period).
* The fixed C array `float tempHistory[NUM_POINTS]` is a total function
  `ℕ → Option ℚ`; only indices `< NUM_POINTS` are ever read back.
* The NVS preference store is passed explicitly as data.
-/

namespace TempIot

/-- Heat states, in the declaration order of the C `enum HeatState`
(so `COOLING = 0`, `ONTARGET = 1`, `HEATING = 2`). -/
inductive HeatState
  | COOLING
  | ONTARGET
  | HEATING
deriving DecidableEq

/-- Integer wire encoding of a heat state, as produced by `(int)state`
in `handleData`. -/
def stateCode : HeatState → ℕ
  | .COOLING => 0
  | .ONTARGET => 1
  | .HEATING => 2

/-- Capacity of the temperature-history ring buffer (`NUM_POINTS`). -/
def NUM_POINTS : ℕ := 120

/-- Debounce window in milliseconds (`DEBOUNCE_MS`). -/
def DEBOUNCE_MS : ℕ := 150

/-- Long-press threshold in milliseconds (`LONG_PRESS_MS`). -/
def LONG_PRESS_MS : ℕ := 10000

/-- Configured awake duration in milliseconds (`AWAKE_DURATION_MS`),
written in the source as `1UL * 60UL * 1000UL`. -/
def AWAKE_DURATION_MS : ℕ := 1 * 60 * 1000

/-- The thermostat decision function `decideState(float t, double sp,
double hyst)`. A `none` temperature is the NaN sentinel (`isnan(t)`). -/
def decideState (t : Option ℚ) (sp hyst : ℚ) : HeatState :=
  match t with
  | none => .ONTARGET
  | some t =>
      let half := hyst / 2
      if t < sp - half then .HEATING
      else if t > sp + half then .COOLING
      else .ONTARGET

/-- Unfolding equation of `decideState` on a present (non-NaN) sample. -/
theorem decideState_some (t sp hyst : ℚ) :
    decideState (some t) sp hyst =
      if t < sp - hyst / 2 then .HEATING
      else if t > sp + hyst / 2 then .COOLING
      else .ONTARGET := rfl

/-- C1: for every temperature `t`, setpoint `sp` and hysteresis
`hyst > 0`, `decideState` returns HEATING iff `t < sp - hyst/2`,
COOLING iff `t > sp + hyst/2`, ONTARGET otherwise; and on the missing
(NaN) sentinel it returns ONTARGET for every `sp` and `hyst`. -/
theorem decideState_spec (t sp hyst : ℚ) (hpos : 0 < hyst) :
    (decideState (some t) sp hyst = .HEATING ↔ t < sp - hyst / 2) ∧
    (decideState (some t) sp hyst = .COOLING ↔ t > sp + hyst / 2) ∧
    (decideState (some t) sp hyst = .ONTARGET ↔
      ¬ t < sp - hyst / 2 ∧ ¬ t > sp + hyst / 2) ∧
    (∀ sp' hyst' : ℚ, decideState none sp' hyst' = .ONTARGET) := by
  have hband : sp - hyst / 2 < sp + hyst / 2 := by linarith
  simp only [decideState_some]
  split_ifs with h1 h2 <;>
    refine ⟨?_, ?_, ?_, fun _ _ => rfl⟩ <;> simp_all <;> try linarith

/-- Witness for `decideState_spec` at `t = 20`, `sp = 21`,
`hyst = 1/2`. -/
theorem decideState_spec_witness :
    decideState (some 20) 21 (1/2) = .HEATING := by
  have h := decideState_spec 20 21 (1/2) (by norm_num)
  exact h.1.mpr (by norm_num)

/-- C2 counterexample: with setpoint 21.0 and hysteresis 0.5 the
half-band is 0.25, so the HEATING boundary is 20.75; the code returns
HEATING (not ONTARGET) both at 20.6 and at 20.74. -/
theorem decideState_scenario_cex :
    decideState (some (103/5)) 21 (1/2) ≠ .ONTARGET ∧
    decideState (some (1037/50)) 21 (1/2) ≠ .ONTARGET ∧
    decideState (some (103/5)) 21 (1/2) = .HEATING ∧
    decideState (some (1037/50)) 21 (1/2) = .HEATING := by
  have e1 : decideState (some (103/5)) 21 (1/2) = .HEATING := by
    rw [decideState_some, if_pos (by norm_num)]
  have e2 : decideState (some (1037/50)) 21 (1/2) = .HEATING := by
    rw [decideState_some, if_pos (by norm_num)]
  exact ⟨by rw [e1]; simp, by rw [e2]; simp, e1, e2⟩

/-- C2 (amended): with setpoint 21.0 and hysteresis 0.5, all three
temperatures 20.6, 20.74 and 20.24 lie strictly below
`sp - hyst/2 = 20.75`, so `decideState` returns HEATING for each. -/
theorem decideState_scenario :
    decideState (some (103/5)) 21 (1/2) = .HEATING ∧
    decideState (some (1037/50)) 21 (1/2) = .HEATING ∧
    decideState (some (506/25)) 21 (1/2) = .HEATING := by
  refine ⟨?_, ?_, ?_⟩ <;> rw [decideState_some, if_pos (by norm_num)]

/-- State of the temperature-history ring buffer: the fixed array
`float tempHistory[NUM_POINTS]` (as a total function, only indices
`< NUM_POINTS` are ever read back), the write cursor `tempIndex` and
the wrap flag `bufferFilled`. -/
@[ext]
structure HistState where
  tempHistory : ℕ → Option ℚ
  tempIndex : ℕ
  bufferFilled : Bool

/-- The empty buffer: every slot NaN, cursor 0, not filled (the state
produced by the no-saved-history branch of `loadHistoryFromPrefs`). -/
def emptyHist : HistState := ⟨fun _ => none, 0, false⟩

/-- One insertion, `addTemperature(float t)`: write at the cursor,
advance it, wrap to 0 and set `bufferFilled` on reaching capacity.
(The `saveHistoryToPrefs()` call is a store side effect modelled
separately.) -/
def addTemperature (t : Option ℚ) (st : HistState) : HistState :=
  let h := Function.update st.tempHistory st.tempIndex t
  let i := st.tempIndex + 1
  if NUM_POINTS ≤ i then ⟨h, 0, true⟩ else ⟨h, i, st.bufferFilled⟩

/-- Boot-time load, `loadHistoryFromPrefs()`. `storedLen` is the byte
length reported for the `"temps"` blob (`sizeof(tempHistory)` is
`4 * NUM_POINTS` bytes), `blob` the decoded float array, `storedIndex`
the persisted `tIndex` int, `storedFilled` the persisted `tFull` flag.
The sanity check resets the cursor when `tempIndex < 0 ||
tempIndex > NUM_POINTS`, keeping the loaded array. -/
def loadHistoryFromPrefs (storedLen : ℕ) (blob : ℕ → Option ℚ)
    (storedIndex : ℤ) (storedFilled : Bool) : HistState :=
  if storedLen = 4 * NUM_POINTS then
    if storedIndex < 0 ∨ (NUM_POINTS : ℤ) < storedIndex then
      ⟨blob, 0, false⟩
    else
      ⟨blob, storedIndex.toNat, storedFilled⟩
  else
    ⟨fun _ => none, 0, false⟩

/-- Oldest-to-newest reading of the buffer, exactly the `temps` array
produced by the loop in `handleData`: `count` entries, entry `i` taken
at raw index `(tempIndex + i) % NUM_POINTS` when filled and `i`
otherwise. -/
def readOrdered (st : HistState) : List (Option ℚ) :=
  let count := if st.bufferFilled then NUM_POINTS else st.tempIndex
  (List.range count).map fun i =>
    st.tempHistory (if st.bufferFilled then (st.tempIndex + i) % NUM_POINTS else i)

/-- Iterated insertion of a list of samples, oldest first. -/
def appendList (l : List (Option ℚ)) (st : HistState) : HistState :=
  l.foldl (fun s t => addTemperature t s) st

/-- C3: the claimed invariant `0 ≤ index < N` fails on the code. A
persisted blob of the correct byte length with stored index exactly
`NUM_POINTS = 120` passes the corruption guard (which tests
`tempIndex > NUM_POINTS`, not `≥`), so the loaded state has cursor
120, outside the buffer, and the next `addTemperature` writes at slot
120 — one past the end of the 120-element array. -/
theorem loadHistory_index_escape :
    (loadHistoryFromPrefs (4 * NUM_POINTS) (fun _ => none) 120 true).tempIndex
        = NUM_POINTS ∧
    ¬ (loadHistoryFromPrefs (4 * NUM_POINTS) (fun _ => none) 120 true).tempIndex
        < NUM_POINTS ∧
    (addTemperature (some 20)
        (loadHistoryFromPrefs (4 * NUM_POINTS) (fun _ => none) 120 true)).tempHistory
        NUM_POINTS = some 20 := by
  have h : loadHistoryFromPrefs (4 * NUM_POINTS) (fun _ => none) 120 true
      = ⟨fun _ => none, 120, true⟩ := by
    unfold loadHistoryFromPrefs
    norm_num [NUM_POINTS]
    rfl
  refine ⟨by rw [h]; norm_num [NUM_POINTS], by rw [h]; norm_num [NUM_POINTS], ?_⟩
  rw [h]
  unfold addTemperature
  norm_num [NUM_POINTS]

/-- C5: when the persisted blob's byte length is not the expected
`4 * NUM_POINTS` bytes, loading reinitializes every slot to the NaN
sentinel and yields cursor 0 with `bufferFilled = false`. -/
theorem loadHistory_wrong_length (storedLen : ℕ) (blob : ℕ → Option ℚ)
    (storedIndex : ℤ) (storedFilled : Bool)
    (hlen : storedLen ≠ 4 * NUM_POINTS) :
    (∀ j, (loadHistoryFromPrefs storedLen blob storedIndex storedFilled).tempHistory j
        = none) ∧
    (loadHistoryFromPrefs storedLen blob storedIndex storedFilled).tempIndex = 0 ∧
    (loadHistoryFromPrefs storedLen blob storedIndex storedFilled).bufferFilled
        = false := by
  unfold loadHistoryFromPrefs
  rw [if_neg hlen]
  exact ⟨fun _ => rfl, rfl, rfl⟩

/-- Witness for `loadHistory_wrong_length` at byte length 0. -/
theorem loadHistory_wrong_length_witness :
    (0 : ℕ) ≠ 4 * NUM_POINTS ∧
    (loadHistoryFromPrefs 0 (fun _ => some 1) 7 true).tempIndex = 0 := by
  have hlen : (0 : ℕ) ≠ 4 * NUM_POINTS := by norm_num [NUM_POINTS]
  exact ⟨hlen, (loadHistory_wrong_length 0 (fun _ => some 1) 7 true hlen).2.1⟩

theorem appendList_cons (t : Option ℚ) (l : List (Option ℚ)) (st : HistState) :
    appendList (t :: l) st = appendList l (addTemperature t st) := rfl

theorem appendList_singleton (t : Option ℚ) (st : HistState) :
    appendList [t] st = addTemperature t st := rfl

theorem appendList_append (l₁ l₂ : List (Option ℚ)) (st : HistState) :
    appendList (l₁ ++ l₂) st = appendList l₂ (appendList l₁ st) := by
  simp [appendList, List.foldl_append]

theorem getD_concat_lt {α : Type} (l : List α) (a : α) (n : ℕ) (d : α)
    (h : n < l.length) : (l ++ [a]).getD n d = l.getD n d := by
  simp [List.getElem?_append_left h]

theorem getD_concat_self {α : Type} (l : List α) (a d : α) :
    (l ++ [a]).getD l.length d = a := by
  simp [List.getElem?_concat_length]

/-- After fewer than `NUM_POINTS` insertions into the empty buffer the
cursor equals the number of insertions, the buffer is not filled, and
slot `j` holds the `j`-th inserted sample. -/
theorem appendList_fill (s : List (Option ℚ)) (h : s.length < NUM_POINTS) :
    appendList s emptyHist =
      ⟨fun j => if j < s.length then s.getD j none else none, s.length, false⟩ := by
  induction s using List.reverseRecOn with
  | nil =>
      show emptyHist = _
      refine HistState.ext ?_ rfl rfl
      funext j
      simp [emptyHist]
  | append_singleton s a ih =>
      have hlen : s.length < NUM_POINTS := by
        simp only [List.length_append, List.length_singleton] at h
        omega
      rw [appendList_append, ih hlen, appendList_singleton]
      simp only [addTemperature]
      rw [if_neg (by simp only [List.length_append, List.length_singleton] at h; omega)]
      refine HistState.ext ?_ (by simp) rfl
      funext j
      simp only [Function.update_apply, List.length_append, List.length_singleton]
      by_cases hj : j = s.length
      · subst hj
        rw [if_pos rfl, if_pos (by omega), getD_concat_self]
      · rw [if_neg hj]
        by_cases hj2 : j < s.length
        · rw [if_pos hj2, if_pos (by omega), getD_concat_lt _ _ _ _ hj2]
        · rw [if_neg hj2, if_neg (by omega)]

/-- After exactly `NUM_POINTS` insertions into the empty buffer the
cursor has wrapped to 0, `bufferFilled` is set, and slot `j` holds the
`j`-th inserted sample. -/
theorem appendList_fill_exact (s : List (Option ℚ)) (h : s.length = NUM_POINTS) :
    appendList s emptyHist =
      ⟨fun j => if j < NUM_POINTS then s.getD j none else none, 0, true⟩ := by
  have hN : NUM_POINTS = 120 := rfl
  rcases List.eq_nil_or_concat' s with rfl | ⟨s', a, rfl⟩
  · simp at h
    omega
  · have hlen : s'.length = NUM_POINTS - 1 := by
      simp only [List.length_append, List.length_singleton] at h
      omega
    have hlt : s'.length < NUM_POINTS := by omega
    rw [appendList_append, appendList_fill s' hlt, appendList_singleton]
    simp only [addTemperature]
    rw [if_pos (by omega)]
    refine HistState.ext ?_ rfl rfl
    funext j
    simp only [Function.update_apply]
    by_cases hj : j = s'.length
    · subst hj
      rw [if_pos rfl, if_pos (by omega), getD_concat_self]
    · rw [if_neg hj]
      by_cases hj2 : j < s'.length
      · rw [if_pos hj2, if_pos (by omega), getD_concat_lt _ _ _ _ hj2]
      · rw [if_neg hj2, if_neg (by omega)]

/-- Appending `t` to a filled buffer without reaching the wrap point
overwrites the slots `[tempIndex, tempIndex + t.length)` in order and
advances the cursor by `t.length`. -/
theorem appendList_wrapped (t : List (Option ℚ)) : ∀ (f : ℕ → Option ℚ) (i : ℕ),
    i + t.length < NUM_POINTS →
    appendList t ⟨f, i, true⟩ =
      ⟨fun j => if i ≤ j ∧ j < i + t.length then t.getD (j - i) none else f j,
        i + t.length, true⟩ := by
  induction t with
  | nil =>
      intro f i _
      show HistState.mk f i true = _
      refine HistState.ext ?_ (by simp) rfl
      funext j
      simp only [List.length_nil, Nat.add_zero]
      rw [if_neg (by omega)]
  | cons a t ih =>
      intro f i hlt
      simp only [List.length_cons] at hlt
      rw [appendList_cons]
      have h1 : addTemperature a ⟨f, i, true⟩ =
          ⟨Function.update f i a, i + 1, true⟩ := by
        simp only [addTemperature]
        rw [if_neg (by omega)]
      rw [h1, ih (Function.update f i a) (i + 1) (by omega)]
      refine HistState.ext ?_ (by simp only [List.length_cons]; omega) rfl
      funext j
      simp only [Function.update_apply, List.length_cons]
      by_cases hj : j = i
      · subst hj
        rw [if_neg (by omega), if_pos rfl, if_pos (by omega)]
        simp
      · by_cases hj2 : i + 1 ≤ j ∧ j < i + 1 + t.length
        · rw [if_pos hj2, if_pos (by omega)]
          have hsub : j - i = (j - (i + 1)) + 1 := by omega
          rw [hsub, List.getD_cons_succ]
        · rw [if_neg hj2, if_neg hj, if_neg (by omega)]

/-- Reading a filled buffer walks the whole array starting at the
cursor, modulo `NUM_POINTS`. -/
theorem readOrdered_filled (f : ℕ → Option ℚ) (i : ℕ) :
    readOrdered ⟨f, i, true⟩ =
      (List.range NUM_POINTS).map (fun x => f ((i + x) % NUM_POINTS)) := by
  simp [readOrdered]

/-- C4: from the empty buffer, appending exactly `NUM_POINTS` samples
yields `bufferFilled = true` and cursor 0; appending `NUM_POINTS + k`
samples with `0 < k < NUM_POINTS`, the ordered read produced for the
data route is exactly the last `NUM_POINTS` samples in insertion
order, i.e. the input sequence with its first `k` samples dropped
(starting with the `k`-th inserted sample, counting from 0). -/
theorem ringBuffer_fill_and_order (s : List (Option ℚ)) (k : ℕ)
    (hk0 : 0 < k) (hkN : k < NUM_POINTS) (hlen : s.length = NUM_POINTS + k) :
    (appendList (s.take NUM_POINTS) emptyHist).bufferFilled = true ∧
    (appendList (s.take NUM_POINTS) emptyHist).tempIndex = 0 ∧
    readOrdered (appendList s emptyHist) = s.drop k := by
  have hN : NUM_POINTS = 120 := rfl
  have htake : (s.take NUM_POINTS).length = NUM_POINTS := by
    simp [hlen]
  have hfull := appendList_fill_exact (s.take NUM_POINTS) htake
  refine ⟨by rw [hfull], by rw [hfull], ?_⟩
  have hdlen : (s.drop NUM_POINTS).length = k := by
    simp [hlen]
  conv_lhs => rw [← List.take_append_drop NUM_POINTS s]
  rw [appendList_append, hfull,
    appendList_wrapped (s.drop NUM_POINTS) _ 0 (by omega),
    readOrdered_filled]
  apply List.ext_getElem
  · simp only [List.length_map, List.length_range, List.length_drop, hlen]
    omega
  · intro i h1 h2
    simp only [List.getElem_map, List.getElem_range, List.getElem_drop,
      Nat.zero_add, Nat.zero_le, true_and, Nat.sub_zero, hdlen]
    have hiN : i < NUM_POINTS := by
      simpa using h1
    by_cases hio : k + i < NUM_POINTS
    · have hmod : (k + i) % NUM_POINTS = k + i := Nat.mod_eq_of_lt hio
      rw [hmod, if_neg (by omega), if_pos (by omega)]
      have hb : k + i < (s.take NUM_POINTS).length := by omega
      rw [List.getD_eq_getElem?_getD, List.getElem?_eq_getElem hb]
      simp
    · have hmod : (k + i) % NUM_POINTS = k + i - NUM_POINTS := by
        rw [hN] at hio hiN hkN ⊢
        omega
      rw [hmod, if_pos (by omega)]
      have hb : k + i - NUM_POINTS < (s.drop NUM_POINTS).length := by omega
      rw [List.getD_eq_getElem?_getD, List.getElem?_eq_getElem hb]
      simp only [List.getElem_drop, Option.getD_some]
      congr 1
      omega

/-- Witness for `ringBuffer_fill_and_order` with 121 samples and
`k = 1`. -/
theorem ringBuffer_fill_and_order_witness :
    ((0 : ℕ) < 1 ∧ 1 < NUM_POINTS ∧
      (List.replicate (NUM_POINTS + 1) (some (20 : ℚ))).length = NUM_POINTS + 1) ∧
    readOrdered (appendList (List.replicate (NUM_POINTS + 1) (some (20 : ℚ)))
        emptyHist)
      = (List.replicate (NUM_POINTS + 1) (some (20 : ℚ))).drop 1 :=
  ⟨⟨Nat.one_pos, by norm_num [NUM_POINTS], by simp⟩,
   (ringBuffer_fill_and_order _ 1 Nat.one_pos (by norm_num [NUM_POINTS])
      (by simp)).2.2⟩

/-- In-memory thermostat configuration (the globals `setpoint` and
`hysteresis`). -/
structure ThermoConfig where
  setpoint : ℚ
  hysteresis : ℚ
deriving DecidableEq

/-- The persisted `"setpoint"` / `"hysteresis"` preference slots
(`none` = key absent). -/
structure PrefsConfig where
  prefSetpoint : Option ℚ
  prefHysteresis : Option ℚ
deriving DecidableEq

/-- The `/set` route handler `handleSet()`. `spArg`/`hArg` are the
parsed `sp` and `h` query arguments (`none` when absent). Returns the
HTTP status together with the updated in-memory configuration and
persisted preferences. In AP mode the request is rejected with 400
and nothing changes; otherwise the arguments are applied (hysteresis
floor-clamped to 0.1), both keys are persisted when anything changed,
and 200 "OK" is sent. -/
def handleSet (apMode : Bool) (spArg hArg : Option ℚ)
    (cfg : ThermoConfig) (prefs : PrefsConfig) :
    ℕ × ThermoConfig × PrefsConfig :=
  if apMode then (400, cfg, prefs)
  else
    let cfg1 := match spArg with
      | some v => { cfg with setpoint := v }
      | none => cfg
    let changed1 := spArg.isSome
    let cfg2 := match hArg with
      | some v => { cfg1 with hysteresis := if v < 1/10 then 1/10 else v }
      | none => cfg1
    let changed := changed1 || hArg.isSome
    let prefs' := if changed
      then ⟨some cfg2.setpoint, some cfg2.hysteresis⟩
      else prefs
    (200, cfg2, prefs')

/-- The JSON payload assembled by `handleData()` in normal mode. -/
structure DataPayload where
  setpoint : ℚ
  hysteresis : ℚ
  heaterOn : Bool
  state : ℕ
  count : ℕ
  temps : List (Option ℚ)

/-- The `/data` route handler `handleData()`: in AP mode it sends 400
with no data; otherwise 200 with the configuration, heat state and the
ordered history. -/
def handleData (apMode : Bool) (cfg : ThermoConfig) (s : HeatState)
    (st : HistState) : ℕ × Option DataPayload :=
  if apMode then (400, none)
  else
    (200, some
      { setpoint := cfg.setpoint
        hysteresis := cfg.hysteresis
        heaterOn := s = .HEATING
        state := stateCode s
        count := if st.bufferFilled then NUM_POINTS else st.tempIndex
        temps := readOrdered st })

/-- C6: a `/set` request in normal mode carrying a hysteresis value
below the 0.1 floor succeeds (status 200) and silently stores 0.1,
both in memory and in the preference store. -/
theorem handleSet_clamps_low_hysteresis (spArg : Option ℚ) (v : ℚ)
    (cfg : ThermoConfig) (prefs : PrefsConfig) (hv : v < 1/10) :
    (handleSet false spArg (some v) cfg prefs).1 = 200 ∧
    (handleSet false spArg (some v) cfg prefs).2.1.hysteresis = 1/10 ∧
    (handleSet false spArg (some v) cfg prefs).2.2.prefHysteresis
      = some (1/10) := by
  cases spArg <;> simp [handleSet] <;> intro h <;> linarith

/-- Witness for `handleSet_clamps_low_hysteresis` at hysteresis
argument 0. -/
theorem handleSet_clamps_low_hysteresis_witness :
    (0 : ℚ) < 1/10 ∧
    (handleSet false none (some 0) ⟨21, 1/2⟩ ⟨none, none⟩).2.1.hysteresis
      = 1/10 := by
  have hv : (0 : ℚ) < 1/10 := by norm_num
  exact ⟨hv,
    (handleSet_clamps_low_hysteresis none 0 ⟨21, 1/2⟩ ⟨none, none⟩ hv).2.1⟩

/-- C10: while in AP (provisioning) mode, `/set` answers 400 and
leaves the configuration and the persistent store untouched, and
`/data` answers 400 without exposing any thermostat state. -/
theorem apMode_rejects_requests (spArg hArg : Option ℚ)
    (cfg : ThermoConfig) (prefs : PrefsConfig) (s : HeatState)
    (st : HistState) :
    handleSet true spArg hArg cfg prefs = (400, cfg, prefs) ∧
    handleData true cfg s st = (400, none) := by
  constructor <;> rfl

/-- Per-button debounce state for the UP setpoint button, together
with the pieces of global state its loop branch mutates (`setpoint`
and the persisted `"setpoint"` key). The DOWN button is symmetric
(`-0.5` instead of `+0.5`). -/
structure UpState where
  upPressed : Bool
  lastUpPress : ℕ
  setpoint : ℚ
  prefSetpoint : Option ℚ

/-- One poll of the UP-button branch of `loop()`: on
`upNow && !upPressed && (now - lastUpPress > DEBOUNCE_MS)` add 0.5 to
the setpoint, persist it, mark pressed and record the trigger time;
otherwise, when the pin is up, clear the pressed flag. Returns the new
state and whether an adjust event fired. -/
def upStep (now : ℕ) (upNow : Bool) (s : UpState) : UpState × Bool :=
  if upNow && !s.upPressed && decide (DEBOUNCE_MS < now - s.lastUpPress) then
    (⟨true, now, s.setpoint + 1/2, some (s.setpoint + 1/2)⟩, true)
  else if !upNow then
    (⟨false, s.lastUpPress, s.setpoint, s.prefSetpoint⟩, false)
  else
    (s, false)

/-- Run the UP-button branch over a list of polls `(now, pinDown)`,
counting fired adjust events. -/
def upRun : List (ℕ × Bool) → UpState → UpState × ℕ
  | [], s => (s, 0)
  | p :: ps, s =>
      let r := upStep p.1 p.2 s
      let rest := upRun ps r.1
      (rest.1, (if r.2 then 1 else 0) + rest.2)

/-- Times of the rising edges of a poll trace (polls where the pin is
down and was up at the previous poll; the pin is initially up). -/
def risingEdges (polls : List (ℕ × Bool)) : List ℕ :=
  (polls.foldl (fun acc p =>
      (p.2, if p.2 && !acc.1 then acc.2 ++ [p.1] else acc.2)) (false, [])).2

/-- C7 counterexample: a trace with exactly two rising edges at 200 ms
and 300 ms — separated by 100 ms, less than the 150 ms window — in
which the second press is still held at 360 ms, produces TWO adjust
events, because the blocked second edge leaves `upPressed` false and
the fire condition is re-evaluated (and passes) later in the hold. -/
theorem upDebounce_cex :
    risingEdges [(200, true), (210, false), (300, true), (360, true), (370, false)]
      = [200, 300] ∧
    300 - 200 < DEBOUNCE_MS ∧
    (upRun [(200, true), (210, false), (300, true), (360, true), (370, false)]
      ⟨false, 0, 21, none⟩).2 = 2 := by
  refine ⟨by decide, by decide, ?_⟩
  decide

/-- C7 (amended): for presses each observed at a single poll and
released before the next press, two rising edges at `t1 < t2` (the
first more than 150 ms after the last trigger) produce exactly one
adjust event when `t2 - t1 ≤ 150` ms and exactly two when
`t2 - t1 > 150` ms; each event adds 0.5 to the setpoint and persists
it immediately; no repeat event fires while the button stays held
after triggering; and a release clears the pressed flag. -/
theorem upDebounce_spec (t1 r1 t2 r2 : ℕ) (sp : ℚ) (pf : Option ℚ)
    (h0 : DEBOUNCE_MS < t1) (h1 : t1 ≤ r1) (h2 : r1 ≤ t2) (h3 : t2 ≤ r2) :
    ((upRun [(t1, true), (r1, false), (t2, true), (r2, false)]
        ⟨false, 0, sp, pf⟩).2
      = if DEBOUNCE_MS < t2 - t1 then 2 else 1) ∧
    ((upRun [(t1, true), (r1, false), (t2, true), (r2, false)]
        ⟨false, 0, sp, pf⟩).1.setpoint
      = if DEBOUNCE_MS < t2 - t1 then sp + 1 else sp + 1/2) ∧
    ((upRun [(t1, true), (r1, false), (t2, true), (r2, false)]
        ⟨false, 0, sp, pf⟩).1.prefSetpoint
      = some ((upRun [(t1, true), (r1, false), (t2, true), (r2, false)]
        ⟨false, 0, sp, pf⟩).1.setpoint)) ∧
    (∀ (s : UpState) (now : ℕ), s.upPressed = true →
      upStep now true s = (s, false)) ∧
    (∀ (s : UpState) (now : ℕ), (upStep now false s).1.upPressed = false) := by
  refine ⟨?_, ?_, ?_, ?_, ?_⟩
  · by_cases hc : DEBOUNCE_MS < t2 - t1 <;> simp [upRun, upStep, h0, hc]
  · by_cases hc : DEBOUNCE_MS < t2 - t1 <;> simp [upRun, upStep, h0, hc] <;> ring
  · by_cases hc : DEBOUNCE_MS < t2 - t1 <;> simp [upRun, upStep, h0, hc]
  · intro s now hs
    simp [upStep, hs]
  · intro s now
    simp [upStep]

/-- Witness for `upDebounce_spec`: presses at 200 ms and 300 ms, both
released promptly, give exactly one adjust event. -/
theorem upDebounce_spec_witness :
    DEBOUNCE_MS < 200 ∧
    (upRun [(200, true), (210, false), (300, true), (310, false)]
      ⟨false, 0, 21, none⟩).2 = 1 := by
  have h := upDebounce_spec 200 210 300 310 21 none (by norm_num [DEBOUNCE_MS])
    (by omega) (by omega) (by omega)
  refine ⟨by norm_num [DEBOUNCE_MS], ?_⟩
  rw [h.1]
  norm_num [DEBOUNCE_MS]

/-- Long-press tracker state for the WAKE/mode button: the previously
recorded pin state `wakeBtnLast`, the rising-edge timestamp
`wakePressStart`, and the mode flag `apMode` (`startApSetupMode()`
sets it). -/
structure WakeState where
  wakeBtnLast : Bool
  wakePressStart : ℕ
  apMode : Bool
deriving DecidableEq

/-- One poll of the WAKE-button branch of `loop()`: a rising edge
records `wakePressStart = now`; then, if the button is down, held for
at least `LONG_PRESS_MS`, and the device is not already in AP mode,
the mode switch fires (`startApSetupMode()` sets `apMode`). Returns
the new state and whether the mode switch fired. -/
def wakeStep (now : ℕ) (wakeNow : Bool) (s : WakeState) : WakeState × Bool :=
  let start := if wakeNow && !s.wakeBtnLast then now else s.wakePressStart
  let fire := wakeNow && decide (LONG_PRESS_MS ≤ now - start) && !s.apMode
  (⟨wakeNow, start, s.apMode || fire⟩, fire)

/-- Run the WAKE-button branch over a list of polls `(now, pinDown)`,
counting mode-switch firings. -/
def wakeRun : List (ℕ × Bool) → WakeState → WakeState × ℕ
  | [], s => (s, 0)
  | p :: ps, s =>
      let r := wakeStep p.1 p.2 s
      let rest := wakeRun ps r.1
      (rest.1, (if r.2 then 1 else 0) + rest.2)

/-- Once in AP mode, the WAKE branch never fires again and AP mode
persists, whatever the polls. -/
theorem wakeRun_ap (polls : List (ℕ × Bool)) : ∀ s : WakeState,
    s.apMode = true →
    (wakeRun polls s).2 = 0 ∧ (wakeRun polls s).1.apMode = true := by
  induction polls with
  | nil => exact fun s h => ⟨rfl, h⟩
  | cons p ps ih =>
      intro s h
      have hstep : (wakeStep p.1 p.2 s).2 = false ∧
          (wakeStep p.1 p.2 s).1.apMode = true := by
        simp [wakeStep, h]
      obtain ⟨h1, h2⟩ := ih (wakeStep p.1 p.2 s).1 hstep.2
      simp [wakeRun, hstep.1, h1, h2]

/-- During a continuous hold that began with a rising edge at `t0`
(not in AP mode), the mode switch fires exactly once as soon as some
poll happens at least `LONG_PRESS_MS` after `t0`, and never
otherwise. -/
theorem wakeRun_held (ts : List ℕ) : ∀ t0 : ℕ,
    (wakeRun (ts.map (fun t => (t, true))) ⟨true, t0, false⟩).2
      = if ts.any (fun t => decide (t0 + LONG_PRESS_MS ≤ t)) then 1 else 0 := by
  induction ts with
  | nil => intro t0; simp [wakeRun]
  | cons t ts ih =>
      intro t0
      have hLP : LONG_PRESS_MS = 10000 := rfl
      by_cases hf : t0 + LONG_PRESS_MS ≤ t
      · have hcond : LONG_PRESS_MS ≤ t - t0 := by omega
        have hstep : wakeStep t true ⟨true, t0, false⟩
            = (⟨true, t0, true⟩, true) := by
          simp [wakeStep, hcond]
        have hap := wakeRun_ap (ts.map (fun x => (x, true))) ⟨true, t0, true⟩ rfl
        simp [wakeRun, hstep, hap.1, hf]
      · have hcond : ¬ LONG_PRESS_MS ≤ t - t0 := by omega
        have hstep : wakeStep t true ⟨true, t0, false⟩
            = (⟨true, t0, false⟩, false) := by
          simp [wakeStep, hcond]
        simp [wakeRun, hstep, ih t0, hf]

/-- C8: from NORMAL mode (`apMode = false`) with the button previously
up, a rising edge records the hold start `now` afresh (no carry-over
from an earlier press); in AP mode the branch never fires and AP mode
persists (so the switch fires at most once per hold); a firing poll
switches to AP mode; and over a continuous hold starting at `t0` the
switch fires exactly once if some poll is at least `LONG_PRESS_MS`
after `t0`, otherwise not at all. -/
theorem wake_longPress (s : WakeState) (now t0 : ℕ) (ts : List ℕ)
    (hap : s.apMode = false) (hlast : s.wakeBtnLast = false) :
    ((wakeStep now true s).1.wakePressStart = now) ∧
    (∀ (s' : WakeState) (n : ℕ) (w : Bool), s'.apMode = true →
      (wakeStep n w s').2 = false ∧ (wakeStep n w s').1.apMode = true) ∧
    (∀ (s' : WakeState) (n : ℕ), (wakeStep n true s').2 = true →
      (wakeStep n true s').1.apMode = true) ∧
    ((wakeRun ((t0 :: ts).map (fun t => (t, true))) s).2
      = if ts.any (fun t => decide (t0 + LONG_PRESS_MS ≤ t)) then 1 else 0) := by
  refine ⟨?_, ?_, ?_, ?_⟩
  · simp [wakeStep, hlast]
  · intro s' n w h
    simp [wakeStep, h]
  · intro s' n h
    simp only [wakeStep] at h ⊢
    rw [h]
    simp
  · have hstep : wakeStep t0 true s = (⟨true, t0, false⟩, false) := by
      simp [wakeStep, hlast, hap, LONG_PRESS_MS]
    simp [wakeRun, hstep, wakeRun_held ts t0]

/-- Witness for `wake_longPress`: a rising edge at 5 ms followed by a
poll at 10005 ms while held fires exactly once. -/
theorem wake_longPress_witness :
    (WakeState.mk false 0 false).apMode = false ∧
    (wakeRun ((5 :: [10005]).map (fun t => (t, true)))
      ⟨false, 0, false⟩).2 = 1 := by
  have h := (wake_longPress ⟨false, 0, false⟩ 0 5 [10005] rfl rfl).2.2.2
  refine ⟨rfl, ?_⟩
  rw [h]
  norm_num [LONG_PRESS_MS]

/-- The sleep-timeout check of `loop()`:
`if (!apMode && (now - awakeStart > AWAKE_DURATION_MS)) goToSleep();`. -/
def sleepRequested (apMode : Bool) (now awakeStart : ℕ) : Bool :=
  !apMode && decide (AWAKE_DURATION_MS < now - awakeStart)

/-- C9: the sleep transition is requested exactly when the device is
in NORMAL mode (`apMode = false`) and `now - awakeStart` exceeds the
configured awake duration; in AP (provisioning) mode it is never
requested, whatever the elapsed time; and the awake duration is one
minute. -/
theorem sleepRequested_spec (now awakeStart : ℕ) :
    (sleepRequested false now awakeStart = true ↔
      AWAKE_DURATION_MS < now - awakeStart) ∧
    (sleepRequested true now awakeStart = false) ∧
    AWAKE_DURATION_MS = 60 * 1000 := by
  refine ⟨?_, rfl, rfl⟩
  simp [sleepRequested]

end TempIot
